import Mathlib

/-!
Verification development for the blcm-hardware sales-and-inventory backend.
The JavaScript controllers are shallowly embedded: JS numbers become Rat,
timestamps become Nat milliseconds since the epoch, MongoDB aggregation
pipelines become list computations.  The fixed-offset timezone used by
setHours and by dateToString is modelled as a millisecond offset tz.
-/

/-- Milliseconds in one day. -/
def dayMs : Nat := 86400000

/-- Index of the calendar day containing timestamp t in a timezone that is
tz milliseconds ahead of UTC. -/
def dayKey (tz t : Nat) : Nat := (t + tz) / dayMs

/-- Embedding of end.setHours(23, 59, 59, 999): the last millisecond of the
local calendar day containing e. -/
def endOfDayTs (tz e : Nat) : Nat := dayKey tz e * dayMs + (dayMs - 1) - tz

/-- First millisecond of the local calendar day containing s.  Used only by
claim-side definitions; the code never truncates the start boundary. -/
def startOfDayTs (tz s : Nat) : Nat := dayKey tz s * dayMs - tz

/-- One entry of a product pricing history, mirroring the pricingHistory
subdocuments written by createProduct and updateProduct. -/
structure PricingEntry where
  basePrice : Rat
  markupPercentage : Rat
  updatedAt : Nat
deriving DecidableEq

/-- Embedding of a Product document.  The category field models the JS
string-or-absent field, with none standing for a missing category. -/
structure Product where
  id : Nat
  name : String
  category : Option String
  price : Rat
  markupPercentage : Rat
  stockQuantity : Nat
  lowStockThreshold : Nat
  isActive : Bool
  pricingHistory : List PricingEntry
deriving DecidableEq

/-- One line item of a sale: product reference, quantity, unit price frozen
at sale time, and the line subtotal. -/
structure SaleItem where
  product : Nat
  quantity : Nat
  unitPrice : Rat
  subtotal : Rat
deriving DecidableEq

/-- Embedding of a Sale document, with the fields the reports consume. -/
structure Sale where
  items : List SaleItem
  discount : Rat
  tax : Rat
  total : Rat
  isVoid : Bool
  createdAt : Nat
deriving DecidableEq

/-- Embedding of Product.find by id: Mongoose resolves a reference to the
first document whose id matches. -/
def lookupProduct (products : List Product) (pid : Nat) : Option Product :=
  products.find? (fun p => p.id == pid)

/-- Insertion step of the sorting used to model deterministic sorts in the
aggregation pipelines. -/
def insertOrd (le : α → α → Bool) (a : α) : List α → List α
  | [] => [a]
  | b :: t => if le a b then a :: b :: t else b :: insertOrd le a t

/-- Insertion sort by the boolean relation le. -/
def sortOrd (le : α → α → Bool) : List α → List α
  | [] => []
  | a :: t => insertOrd le a (sortOrd le t)

/-- Boolean predicate: consecutive elements of the list are related by le. -/
def chainLe (le : α → α → Bool) : List α → Bool
  | [] => true
  | [_] => true
  | a :: b :: t => le a b && chainLe le (b :: t)

/-- Revenue of a list of sales: sum of the total field, as summed by the
group stage of the report pipelines. -/
def revenueOf (l : List Sale) : Rat := (l.map Sale.total).sum

/-- VAT of a list of sales: sum of the tax field. -/
def vatOf (l : List Sale) : Rat := (l.map Sale.tax).sum

/-- Embedding of the match stage repeated by every query of getSalesReport:
isVoid false and createdAt between the parsed start instant and the
end-of-day-extended end instant, both inclusive.  The code applies
setHours(23,59,59,999) to the end date only; the start is used as parsed. -/
def matchedSales (tz s e : Nat) (salesList : List Sale) : List Sale :=
  salesList.filter fun sl =>
    !sl.isVoid && decide (s ≤ sl.createdAt) && decide (sl.createdAt ≤ endOfDayTs tz e)

/-- One per-day bucket of the salesByDate map of getSalesReport. -/
structure DayBucket where
  key : Nat
  count : Nat
  revenue : Rat
deriving DecidableEq

/-- Ascending order on day buckets, modelling the sort id 1 stage. -/
def dayBucketLe (a b : DayBucket) : Bool := decide (a.key ≤ b.key)

/-- Embedding of the salesByDate aggregation of getSalesReport: group the
matched sales by local calendar day, count and sum revenue per day, sort
ascending by the day key. -/
def dayBuckets (tz : Nat) (m : List Sale) : List DayBucket :=
  sortOrd dayBucketLe
    (((m.map fun sl => dayKey tz sl.createdAt).dedup).map fun k =>
      { key := k
        count := (m.filter fun sl => dayKey tz sl.createdAt == k).length
        revenue := revenueOf (m.filter fun sl => dayKey tz sl.createdAt == k) })

/-- Descending order on sales by createdAt, modelling sort createdAt -1. -/
def byCreatedDesc (a b : Sale) : Bool := decide (b.createdAt ≤ a.createdAt)

/-- Embedding of the Sale.find query of getSalesReport: the matched sales
sorted by createdAt descending and truncated by limit(100). -/
def recentSales (m : List Sale) : List Sale := (sortOrd byCreatedDesc m).take 100

/-- COGS contribution of one line item: current base price of the referenced
product times quantity, and 0 when the product does not resolve, mirroring
the if product guard of the COGS loop. -/
def itemCOGS (products : List Product) (it : SaleItem) : Rat :=
  match lookupProduct products it.product with
  | some p => p.price * (it.quantity : Rat)
  | none => 0

/-- COGS contribution of one sale. -/
def saleCOGS (products : List Product) (sl : Sale) : Rat :=
  (sl.items.map (itemCOGS products)).sum

/-- COGS of a list of sales, as accumulated by the nested forEach loops. -/
def totalCOGS (products : List Product) (l : List Sale) : Rat :=
  (l.map (saleCOGS products)).sum

/-- Result record of getSalesReport. -/
structure SalesReport where
  totalSales : Nat
  totalRevenue : Rat
  totalVAT : Rat
  totalCOGS : Rat
  profit : Rat
  salesByDate : List DayBucket
deriving DecidableEq

/-- Embedding of getSalesReport.  The summary aggregation has no limit; the
COGS computation runs over the limit(100) query result only.  An empty
summary result is the all-zero record, matching the JS default object. -/
def getSalesReport (tz s e : Nat) (salesList : List Sale) (products : List Product) :
    SalesReport :=
  let m := matchedSales tz s e salesList
  let cogs := totalCOGS products (recentSales m)
  { totalSales := m.length
    totalRevenue := revenueOf m
    totalVAT := vatOf m
    totalCOGS := cogs
    profit := revenueOf m - cogs
    salesByDate := dayBuckets tz m }

/-- Definition following the words of claim C3: the counted sales are those
with isVoid false and createdAt between startOfDay of the start and
endOfDay of the end. -/
def specMatchedSales (tz s e : Nat) (salesList : List Sale) : List Sale :=
  salesList.filter fun sl =>
    !sl.isVoid && decide (startOfDayTs tz s ≤ sl.createdAt) &&
      decide (sl.createdAt ≤ endOfDayTs tz e)

/-- Definition following the words of claim C2: COGS summed over every line
item of every matched sale of the range, with no limit. -/
def specTotalCOGS (tz s e : Nat) (salesList : List Sale) (products : List Product) : Rat :=
  totalCOGS products (matchedSales tz s e salesList)

/-- Per-category bucket of the inventory report. -/
structure CatBucket where
  category : String
  count : Nat
  totalValue : Rat
deriving DecidableEq

/-- Result record of getInventoryReport. -/
structure InventoryReport where
  totalProducts : Nat
  totalStockValue : Rat
  lowStockCount : Nat
  outOfStockCount : Nat
  byCategory : List CatBucket
  lowStockList : List Product
  outOfStockList : List Product
  data : List Product
deriving DecidableEq

/-- Embedding of the JS expression product.category or Uncategorized: a
missing category falls into the sentinel bucket. -/
def categoryOr (p : Product) : String := p.category.getD "Uncategorized"

/-- Stock value of a list of products: sum of price times stockQuantity. -/
def stockValue (l : List Product) : Rat :=
  (l.map fun p => p.price * (p.stockQuantity : Rat)).sum

/-- Embedding of getInventoryReport: active products only, totals, low and
out-of-stock subsets, and the per-category rollup. -/
def getInventoryReport (products : List Product) : InventoryReport :=
  let act := products.filter (·.isActive)
  let low := act.filter fun p => decide (p.stockQuantity ≤ p.lowStockThreshold)
  let oos := act.filter fun p => p.stockQuantity == 0
  { totalProducts := act.length
    totalStockValue := stockValue act
    lowStockCount := low.length
    outOfStockCount := oos.length
    byCategory := ((act.map categoryOr).dedup).map fun c =>
      { category := c
        count := (act.filter fun p => categoryOr p == c).length
        totalValue := stockValue (act.filter fun p => categoryOr p == c) }
    lowStockList := low
    outOfStockList := oos
    data := act }

/-- One row of the getTopProducts aggregation output. -/
structure TopEntry where
  productId : Nat
  productName : String
  totalQuantity : Nat
  totalRevenue : Rat
  saleCount : Nat
deriving DecidableEq

/-- Embedding of the match stage of getTopProducts: isVoid false always, and
the createdAt range only when both dates were supplied. -/
def topMatched (tz : Nat) (range : Option (Nat × Nat)) (salesList : List Sale) :
    List Sale :=
  salesList.filter fun sl =>
    !sl.isVoid &&
      match range with
      | none => true
      | some (a, b) => decide (a ≤ sl.createdAt) && decide (sl.createdAt ≤ endOfDayTs tz b)

/-- Embedding of the unwind items stage: the line items of the sales, in
order. -/
def unwound : List Sale → List SaleItem
  | [] => []
  | sl :: t => sl.items ++ unwound t

/-- Total quantity grouped for one product id over unwound line items. -/
def qtyFor (its : List SaleItem) (pid : Nat) : Nat :=
  ((its.filter fun it => it.product == pid).map (·.quantity)).sum

/-- Total revenue grouped for one product id: sum of line subtotals. -/
def revFor (its : List SaleItem) (pid : Nat) : Rat :=
  ((its.filter fun it => it.product == pid).map (·.subtotal)).sum

/-- Occurrence count grouped for one product id: one per unwound line item,
as counted by the sum 1 accumulator after unwind. -/
def cntFor (its : List SaleItem) (pid : Nat) : Nat :=
  (its.filter fun it => it.product == pid).length

/-- One group row joined with its resolved product. -/
def mkTopEntry (its : List SaleItem) (pid : Nat) (p : Product) : TopEntry :=
  { productId := pid
    productName := p.name
    totalQuantity := qtyFor its pid
    totalRevenue := revFor its pid
    saleCount := cntFor its pid }

/-- Embedding of the group, lookup and unwind product stages of
getTopProducts: one entry per distinct referenced product id, dropped when
the product no longer resolves (unwinding an empty lookup array removes the
row). -/
def topGroups (tz : Nat) (range : Option (Nat × Nat)) (salesList : List Sale)
    (products : List Product) : List TopEntry :=
  let its := unwound (topMatched tz range salesList)
  ((its.map (·.product)).dedup).filterMap fun pid =>
    (lookupProduct products pid).map (mkTopEntry its pid)

/-- Descending order on group rows by total quantity, the only sort key of
the pipeline. -/
def topQtyGe (a b : TopEntry) : Bool := decide (b.totalQuantity ≤ a.totalQuantity)

/-- Embedding of the sort and limit stages of getTopProducts.  MongoDB gives
no guarantee on the relative order of documents with equal sort keys, so
the result is specified as a relation: any permutation of the group rows
that is descending in total quantity, truncated to the limit. -/
def isTopResult (tz : Nat) (range : Option (Nat × Nat)) (limit : Nat)
    (salesList : List Sale) (products : List Product) (out : List TopEntry) : Prop :=
  ∃ l, (topGroups tz range salesList products).Perm l ∧ chainLe topQtyGe l = true ∧
    out = l.take limit

/-- The three date formats selected by getRevenueTrends. -/
inductive DateFmt
  | fmtDay
  | fmtWeek
  | fmtMonth
deriving DecidableEq

/-- Embedding of the if chain selecting the dateToString format from the
groupBy query parameter; anything unrecognized defaults to day. -/
def trendFormat (groupBy : String) : DateFmt :=
  if groupBy = "day" then .fmtDay
  else if groupBy = "week" then .fmtWeek
  else if groupBy = "month" then .fmtMonth
  else .fmtDay

/-- One bucket of the revenue trends output. -/
structure TrendBucket where
  date : Nat
  revenue : Rat
  sales : Nat
deriving DecidableEq

/-- Ascending order on trend buckets by bucket key, for the sort date 1
stage.  Bucket keys abstract the zero-padded date strings produced by
dateToString, whose lexicographic order is chronological. -/
def trendKeyLe (a b : TrendBucket) : Bool := decide (a.date ≤ b.date)

/-- Embedding of getRevenueTrends.  The dts argument abstracts the storage
engine dateToString operator for the configured timezone: it maps a format
and a createdAt timestamp to a bucket key. -/
def getRevenueTrends (dts : DateFmt → Nat → Nat) (tz s e : Nat) (groupBy : String)
    (salesList : List Sale) : List TrendBucket :=
  let fmt := trendFormat groupBy
  let m := matchedSales tz s e salesList
  sortOrd trendKeyLe
    (((m.map fun sl => dts fmt sl.createdAt).dedup).map fun k =>
      { date := k
        revenue := revenueOf (m.filter fun sl => dts fmt sl.createdAt == k)
        sales := (m.filter fun sl => dts fmt sl.createdAt == k).length })

/-- Request body of a product create or update, after the validation layer:
numeric fields arrive parsed, absent fields are none.  An explicit empty
string or non-numeric value is normalized to 0 by the parseFloat-or-0
coercion, so it is modelled as some 0. -/
structure ProductBody where
  name : Option String
  category : Option String
  price : Option Rat
  markupPercentage : Option Rat
  stockQuantity : Option Nat
deriving DecidableEq

/-- Embedding of createProduct: price, markup and stock default to 0 when
absent, and the pricing history is seeded with a single entry holding the
effective price and markup.  Schema defaults of fields not set by the
controller (lowStockThreshold, isActive) are modelled from the spec, the
Product model file being outside src. -/
def createProduct (body : ProductBody) (pid now : Nat) : Product :=
  let pr := body.price.getD 0
  let mp := body.markupPercentage.getD 0
  { id := pid
    name := body.name.getD ""
    category := body.category
    price := pr
    markupPercentage := mp
    stockQuantity := body.stockQuantity.getD 0
    lowStockThreshold := 10
    isActive := true
    pricingHistory := [{ basePrice := pr, markupPercentage := mp, updatedAt := now }] }

/-- Effective new price of an update: the parsed body price when present,
otherwise the stored price. -/
def newPriceOf (p : Product) (body : ProductBody) : Rat := body.price.getD p.price

/-- Effective new markup of an update. -/
def newMarkupOf (p : Product) (body : ProductBody) : Rat :=
  body.markupPercentage.getD p.markupPercentage

/-- Embedding of updateProduct: when the numeric comparison detects a price
or markup change, the history (seeded from the old values when empty) gets
one appended entry; otherwise the history is left alone.  The document
update then applies the body fields. -/
def updateProduct (p : Product) (body : ProductBody) (now : Nat) : Product :=
  let np := newPriceOf p body
  let nm := newMarkupOf p body
  let seeded :=
    if p.pricingHistory = [] then
      [{ basePrice := p.price, markupPercentage := p.markupPercentage, updatedAt := now }]
    else p.pricingHistory
  { p with
    name := body.name.getD p.name
    category := body.category.orElse fun _ => p.category
    price := np
    markupPercentage := nm
    stockQuantity := body.stockQuantity.getD p.stockQuantity
    pricingHistory :=
      if np ≠ p.price ∨ nm ≠ p.markupPercentage then
        seeded ++ [{ basePrice := np, markupPercentage := nm, updatedAt := now }]
      else p.pricingHistory }

/-- Invariant of claim C5: the last pricing history entry holds the fields
currently in effect on the product. -/
def lastReflects (p : Product) : Prop :=
  ∃ en, p.pricingHistory.getLast? = some en ∧
    en.basePrice = p.price ∧ en.markupPercentage = p.markupPercentage

/-- A sale creation request: ordered line items of product id and quantity,
plus discount and tax. -/
structure SaleReq where
  items : List (Nat × Nat)
  discount : Rat
  tax : Rat
deriving DecidableEq

/-- Business errors of the sale transaction engine. -/
inductive SaleErr
  | productNotFound (pid : Nat)
  | insufficientStock (pid : Nat)
  | invalidAmount
deriving DecidableEq

/-- Persistent store touched by the sale transaction engine. -/
structure Store where
  products : List Product
  sales : List Sale
deriving DecidableEq

/-- Selling price derived from base price and markup percentage. -/
def sellingPrice (p : Product) : Rat := p.price * (1 + p.markupPercentage / 100)

/-- Write the stock quantity of the product with the given id. -/
def updateStock (products : List Product) (pid newQty : Nat) : List Product :=
  products.map fun p => if p.id == pid then { p with stockQuantity := newQty } else p

/-- Modelled from the spec: step 1 and 2 of the createSale algorithm of
sales.controller.js, which is not under src.  Each requested line resolves
its product, failing with ProductNotFound when missing and with
InsufficientStock when quantity exceeds stock, and prices the line at the
current selling price. -/
def validateItems (products : List Product) : List (Nat × Nat) → Except SaleErr (List SaleItem)
  | [] => .ok []
  | (pid, q) :: rest =>
    match lookupProduct products pid with
    | none => .error (.productNotFound pid)
    | some p =>
      if p.stockQuantity < q then .error (.insufficientStock pid)
      else
        match validateItems products rest with
        | .error err => .error err
        | .ok its =>
          .ok ({ product := pid, quantity := q, unitPrice := sellingPrice p,
                 subtotal := sellingPrice p * (q : Rat) } :: its)

/-- Sum of line subtotals. -/
def subtotalSum (its : List SaleItem) : Rat := (its.map SaleItem.subtotal).sum

/-- Modelled from the spec: the commit phase of createSale.  Every line item
decrement is re-checked against the store at commit time; the first failing
decrement aborts the whole commit. -/
def decrementAll (products : List Product) : List (Nat × Nat) → Except SaleErr (List Product)
  | [] => .ok products
  | (pid, q) :: rest =>
    match lookupProduct products pid with
    | none => .error (.productNotFound pid)
    | some p =>
      if p.stockQuantity < q then .error (.insufficientStock pid)
      else decrementAll (updateStock products pid (p.stockQuantity - q)) rest

/-- The sale record persisted by a successful createSale. -/
def mkSaleRecord (its : List SaleItem) (req : SaleReq) (now : Nat) : Sale :=
  { items := its
    discount := req.discount
    tax := req.tax
    total := subtotalSum its - req.discount + req.tax
    isVoid := false
    createdAt := now }

/-- Modelled from the spec: createSale of sales.controller.js, which is not
under src.  Validation runs against the products read at step 1
(checkProducts); the commit decrements run against the store as it stands
at commit time, which a concurrent sale may have changed in between.  A
negative computed total is rejected with InvalidAmount.  The commit is a
single atomic unit: either every decrement applies and the sale record is
appended, or an error is returned and no store is produced. -/
def createSale (req : SaleReq) (checkProducts : List Product) (st : Store) (now : Nat) :
    Except SaleErr Store :=
  match validateItems checkProducts req.items with
  | .error err => .error err
  | .ok its =>
    if subtotalSum its - req.discount + req.tax < 0 then .error .invalidAmount
    else
      match decrementAll st.products req.items with
      | .error err => .error err
      | .ok products2 => .ok { products := products2, sales := st.sales ++ [mkSaleRecord its req now] }

/-- The store state persisted after a createSale request: the transaction
result on success, the untouched prior store on any error. -/
def runCreateSale (req : SaleReq) (checkProducts : List Product) (st : Store) (now : Nat) :
    Store :=
  match createSale req checkProducts st now with
  | .error _ => st
  | .ok st2 => st2

/-- Roles attached to authenticated requests. -/
inductive Role
  | admin
  | staff
  | supplier
deriving DecidableEq

/-- Modelled from the spec: the authorize middleware of
auth.middleware.js, which is not under src, passes exactly the listed
roles. -/
def authorize (allowed : List Role) (role : Role) : Bool := allowed.contains role

/-- The validator trim: leading and trailing whitespace removed, expressed
structurally over the character list so that it evaluates. -/
def trimmed (s : String) : List Char :=
  ((s.data.dropWhile Char.isWhitespace).reverse.dropWhile Char.isWhitespace).reverse

/-- Outcome of the void route checks that run before the controller. -/
inductive VoidGate
  | rejectedRole
  | rejectedCode
  | executed
deriving DecidableEq

/-- Embedding of the void route of sales.routes.js: authorize admin and
staff first, then the validator requiring a trimmed non-empty
superAdminCode, and only then the controller. -/
def voidGate (role : Role) (code : String) : VoidGate :=
  if !(authorize [Role.admin, Role.staff] role) then .rejectedRole
  else if trimmed code = [] then .rejectedCode
  else .executed

/-- The void route as a state transformer: the handler argument stands for
the voidSale controller; a request rejected by the gate never reaches it
and leaves the state alone. -/
def voidRoute {σ : Type} (handler : σ → σ) (role : Role) (code : String) (st : σ) : σ :=
  match voidGate role code with
  | .executed => handler st
  | _ => st

/-- Embedding of the create-sale route authorization list of
sales.routes.js. -/
def createSaleAllowed (role : Role) : Bool :=
  authorize [Role.supplier, Role.staff, Role.admin] role

/-- Sample product with id 1 and base price 1. -/
def prodOne : Product :=
  { id := 1, name := "A", category := none, price := 1, markupPercentage := 0,
    stockQuantity := 50, lowStockThreshold := 5, isActive := true,
    pricingHistory := [{ basePrice := 1, markupPercentage := 0, updatedAt := 0 }] }

/-- Sample product with id 2. -/
def prodTwo : Product :=
  { id := 2, name := "B", category := none, price := 2, markupPercentage := 0,
    stockQuantity := 40, lowStockThreshold := 5, isActive := true,
    pricingHistory := [{ basePrice := 2, markupPercentage := 0, updatedAt := 0 }] }

/-- A non-void sale of one unit of product 1, created at time t. -/
def mkSimpleSale (t : Nat) : Sale :=
  { items := [{ product := 1, quantity := 1, unitPrice := 1, subtotal := 1 }]
    discount := 0, tax := 0, total := 1, isVoid := false, createdAt := t }

/-- 101 non-void sales of product 1 at times 0 to 100, one more than the
limit(100) window of the COGS query. -/
def salesMany : List Sale := (List.range 101).map mkSimpleSale

/-- A sale created at the very first millisecond of day 0, before the
mid-day start instant used in the boundary counterexample. -/
def earlySale : Sale := mkSimpleSale 0

/-- Sale of five units of product 1, for the top-products tie. -/
def tieSaleA : Sale :=
  { items := [{ product := 1, quantity := 5, unitPrice := 1, subtotal := 5 }]
    discount := 0, tax := 0, total := 5, isVoid := false, createdAt := 100 }

/-- Sale of five units of product 2, tying tieSaleA on quantity. -/
def tieSaleB : Sale :=
  { items := [{ product := 2, quantity := 5, unitPrice := 2, subtotal := 10 }]
    discount := 0, tax := 0, total := 10, isVoid := false, createdAt := 200 }

/-- Group row of product 1 in the tie scenario. -/
def entryA : TopEntry :=
  { productId := 1, productName := "A", totalQuantity := 5, totalRevenue := 5, saleCount := 1 }

/-- Group row of product 2 in the tie scenario. -/
def entryB : TopEntry :=
  { productId := 2, productName := "B", totalQuantity := 5, totalRevenue := 10, saleCount := 1 }

/-- Deletion of a product: every document with the given id is removed from
the product collection. -/
def removeProduct (pid : Nat) (products : List Product) : List Product :=
  products.filter fun p => !(p.id == pid)

/-!  General lemmas about the sorting and grouping combinators. -/

theorem insertOrd_perm (le : α → α → Bool) (a : α) (l : List α) :
    (insertOrd le a l).Perm (a :: l) := by
  induction l with
  | nil => simp [insertOrd]
  | cons b t ih =>
    simp only [insertOrd]
    split
    · exact List.Perm.refl _
    · exact (List.Perm.cons b ih).trans (List.Perm.swap a b t)

theorem sortOrd_perm (le : α → α → Bool) (l : List α) : (sortOrd le l).Perm l := by
  induction l with
  | nil => simp [sortOrd]
  | cons a t ih => exact (insertOrd_perm le a (sortOrd le t)).trans (List.Perm.cons a ih)

theorem mem_sortOrd (le : α → α → Bool) (l : List α) (a : α) :
    a ∈ sortOrd le l ↔ a ∈ l :=
  (sortOrd_perm le l).mem_iff

theorem chainLe_insertOrd (le : α → α → Bool)
    (htot : ∀ a b, le a b = true ∨ le b a = true) (a : α) :
    ∀ l : List α, chainLe le l = true → chainLe le (insertOrd le a l) = true := by
  intro l
  induction l with
  | nil => intro _; simp [insertOrd, chainLe]
  | cons b t ih =>
    intro h
    by_cases hab : le a b = true
    · simp only [insertOrd, if_pos hab, chainLe, hab, Bool.true_and]
      exact h
    · have hba : le b a = true := (htot a b).resolve_left hab
      cases t with
      | nil => simp [insertOrd, if_neg hab, chainLe, hba]
      | cons c t2 =>
        have h1 : le b c = true := by
          have h0 := h
          simp only [chainLe, Bool.and_eq_true] at h0
          exact h0.1
        have h2 : chainLe le (c :: t2) = true := by
          have h0 := h
          simp only [chainLe, Bool.and_eq_true] at h0
          exact h0.2
        have ih2 : chainLe le (insertOrd le a (c :: t2)) = true := ih h2
        by_cases hac : le a c = true
        · simp only [insertOrd, if_neg hab, if_pos hac, chainLe, Bool.and_eq_true] at ih2 ⊢
          exact ⟨hba, ih2⟩
        · simp only [insertOrd, if_neg hab, if_neg hac, chainLe, Bool.and_eq_true] at ih2 ⊢
          exact ⟨h1, ih2⟩

theorem sortOrd_chain (le : α → α → Bool)
    (htot : ∀ a b, le a b = true ∨ le b a = true) (l : List α) :
    chainLe le (sortOrd le l) = true := by
  induction l with
  | nil => rfl
  | cons a t ih => exact chainLe_insertOrd le htot a _ ih

theorem chainLe_take (le : α → α → Bool) :
    ∀ (l : List α) (n : Nat), chainLe le l = true → chainLe le (l.take n) = true := by
  intro l
  induction l with
  | nil => intro n _; simp [chainLe]
  | cons a t ih =>
    intro n h
    cases n with
    | zero => simp [chainLe]
    | succ m =>
      cases t with
      | nil => simp [List.take, chainLe]
      | cons b t2 =>
        have h1 : le a b = true := by
          have h0 := h
          simp only [chainLe, Bool.and_eq_true] at h0
          exact h0.1
        have h2 : chainLe le (b :: t2) = true := by
          have h0 := h
          simp only [chainLe, Bool.and_eq_true] at h0
          exact h0.2
        cases m with
        | zero => simp [List.take, chainLe]
        | succ k =>
          have h3 : chainLe le ((b :: t2).take (k + 1)) = true := ih (k + 1) h2
          simp only [List.take] at h3 ⊢
          simp [chainLe, h1, h3]

/-!  Lemmas about product lookup and the match filters. -/

theorem lookupProduct_remove_self (products : List Product) (pid : Nat) :
    lookupProduct (removeProduct pid products) pid = none := by
  apply List.find?_eq_none.mpr
  intro x hx
  simp only [removeProduct, List.mem_filter, Bool.not_eq_true'] at hx
  simp [hx.2]

theorem lookupProduct_remove_ne (products : List Product) (pid q : Nat) (hne : q ≠ pid) :
    lookupProduct (removeProduct pid products) q = lookupProduct products q := by
  induction products with
  | nil => rfl
  | cons p t ih =>
    by_cases h1 : p.id = pid
    · have hpq : (p.id == q) = false := by
        simp [h1]
        exact fun h => hne h.symm
      simp only [removeProduct, List.filter] at ih ⊢
      simp only [h1, beq_self_eq_true, Bool.not_true]
      simpa [lookupProduct, List.find?, hpq] using ih
    · have hkeep : (p.id == pid) = false := by simp [h1]
      simp only [removeProduct, List.filter] at ih ⊢
      simp only [hkeep, Bool.not_false]
      by_cases h2 : p.id = q
      · simp [lookupProduct, List.find?, h2]
      · have hpq : (p.id == q) = false := by simp [h2]
        simpa [lookupProduct, List.find?, hpq] using ih

theorem mem_matchedSales (tz s e : Nat) (salesList : List Sale) (sl : Sale) :
    sl ∈ matchedSales tz s e salesList ↔
      sl ∈ salesList ∧ sl.isVoid = false ∧ s ≤ sl.createdAt ∧
        sl.createdAt ≤ endOfDayTs tz e := by
  simp [matchedSales, List.mem_filter, Bool.and_eq_true, Bool.not_eq_true',
    decide_eq_true_eq, and_assoc]

/-!  Lemmas about the COGS accumulators. -/

theorem totalCOGS_nil (products : List Product) : totalCOGS products [] = 0 := rfl

theorem totalCOGS_const_one (products : List Product) :
    ∀ l : List Sale, (∀ sl ∈ l, saleCOGS products sl = 1) →
      totalCOGS products l = (l.length : Rat) := by
  intro l
  induction l with
  | nil => simp [totalCOGS]
  | cons a t ih =>
    intro h
    have ha := h a (List.mem_cons_self a t)
    have ht : totalCOGS products t = (t.length : Rat) :=
      ih fun sl hs => h sl (List.mem_cons_of_mem a hs)
    simp only [totalCOGS, List.map_cons, List.sum_cons, ha] at *
    rw [ht, List.length_cons]
    push_cast
    ring

theorem itemCOGS_remove_le (products : List Product) (pid : Nat) (it : SaleItem)
    (hpos : ∀ p ∈ products, 0 ≤ p.price) :
    itemCOGS (removeProduct pid products) it ≤ itemCOGS products it := by
  by_cases h : it.product = pid
  · rw [itemCOGS, h, lookupProduct_remove_self]
    rw [itemCOGS]
    cases hl : lookupProduct products it.product with
    | none => exact le_refl 0
    | some p =>
      have hp : p ∈ products := List.mem_of_find?_eq_some hl
      exact mul_nonneg (hpos p hp) (Nat.cast_nonneg it.quantity)
  · rw [itemCOGS, lookupProduct_remove_ne products pid it.product h, ← itemCOGS]

theorem saleCOGS_remove_le (products : List Product) (pid : Nat) (sl : Sale)
    (hpos : ∀ p ∈ products, 0 ≤ p.price) :
    saleCOGS (removeProduct pid products) sl ≤ saleCOGS products sl :=
  List.sum_le_sum fun it _ => itemCOGS_remove_le products pid it hpos

theorem totalCOGS_remove_le (products : List Product) (pid : Nat) (l : List Sale)
    (hpos : ∀ p ∈ products, 0 ≤ p.price) :
    totalCOGS (removeProduct pid products) l ≤ totalCOGS products l :=
  List.sum_le_sum fun sl _ => saleCOGS_remove_le products pid sl hpos

/-- Claim C1: for every createSale request, if any step fails (product not
found, insufficient stock, negative computed total, or a failed stock
decrement at commit), then no sale record is persisted and every referenced
product resolves exactly as before the operation began. -/
theorem createSale_error_rollback (req : SaleReq) (checkProducts : List Product)
    (st : Store) (now : Nat) (e : SaleErr)
    (h : createSale req checkProducts st now = Except.error e) :
    (runCreateSale req checkProducts st now).sales = st.sales ∧
    ∀ pid, lookupProduct (runCreateSale req checkProducts st now).products pid =
      lookupProduct st.products pid := by
  simp [runCreateSale, h]

/-- Witness for C1 at a commit-time decrement failure: the stock check at
step 1 passes against the read products, the commit-time store has no
stock, and the persisted state is untouched. -/
theorem createSale_error_rollback_wit :
    createSale ⟨[(1, 5)], 0, 0⟩ [prodOne] ⟨[{ prodOne with stockQuantity := 0 }], []⟩ 0 =
      Except.error (SaleErr.insufficientStock 1) ∧
    (runCreateSale ⟨[(1, 5)], 0, 0⟩ [prodOne]
        ⟨[{ prodOne with stockQuantity := 0 }], []⟩ 0).sales = [] :=
  ⟨by simp [createSale, validateItems, lookupProduct, prodOne, sellingPrice, subtotalSum,
      decrementAll, updateStock],
   (createSale_error_rollback ⟨[(1, 5)], 0, 0⟩ [prodOne]
      ⟨[{ prodOne with stockQuantity := 0 }], []⟩ 0 (.insufficientStock 1)
      (by simp [createSale, validateItems, lookupProduct, prodOne, sellingPrice, subtotalSum,
        decrementAll, updateStock])).1⟩

/-- Counterexample to claim C2 as stated: with 101 matched sales of one unit
of a price-1 product, the code sums COGS over the 100 most recent sales
only, giving 100, while the sum over every matched sale is 101. -/
theorem sales_report_cogs_limit_cex :
    (getSalesReport 0 0 0 salesMany [prodOne]).totalCOGS = 100 ∧
    specTotalCOGS 0 0 0 salesMany [prodOne] = 101 := by
  have hone : ∀ t, saleCOGS [prodOne] (mkSimpleSale t) = 1 := by
    intro t
    simp [saleCOGS, itemCOGS, mkSimpleSale, lookupProduct, prodOne]
  have hmatch : matchedSales 0 0 0 salesMany = salesMany := by
    apply List.filter_eq_self.mpr
    intro sl hsl
    simp only [salesMany, List.mem_map, List.mem_range] at hsl
    obtain ⟨i, hi, rfl⟩ := hsl
    simp only [mkSimpleSale, endOfDayTs, dayKey, dayMs, Bool.not_false, Bool.and_eq_true,
      decide_eq_true_eq, Bool.true_and]
    omega
  have hlen : salesMany.length = 101 := by simp [salesMany]
  have hmem : ∀ sl ∈ recentSales salesMany, saleCOGS [prodOne] sl = 1 := by
    intro sl hsl
    have h1 : sl ∈ sortOrd byCreatedDesc salesMany := List.mem_of_mem_take hsl
    have h2 : sl ∈ salesMany := (mem_sortOrd _ _ _).mp h1
    simp only [salesMany, List.mem_map] at h2
    obtain ⟨i, _, rfl⟩ := h2
    exact hone i
  have hrl : (recentSales salesMany).length = 100 := by
    have hp := (sortOrd_perm byCreatedDesc salesMany).length_eq
    simp [recentSales, List.length_take, hp, hlen]
  constructor
  · show totalCOGS [prodOne] (recentSales (matchedSales 0 0 0 salesMany)) = 100
    rw [hmatch, totalCOGS_const_one [prodOne] _ hmem, hrl]
    norm_num
  · show totalCOGS [prodOne] (matchedSales 0 0 0 salesMany) = 101
    rw [hmatch]
    have hm : ∀ sl ∈ salesMany, saleCOGS [prodOne] sl = 1 := by
      intro sl hsl
      simp only [salesMany, List.mem_map] at hsl
      obtain ⟨i, _, rfl⟩ := hsl
      exact hone i
    rw [totalCOGS_const_one [prodOne] _ hm, hlen]
    norm_num

/-- Claim C2 as amended: profit is revenue minus COGS, and COGS sums the
line items of the up-to-100 most recent matched sales; whenever at most 100
sales match the range, this equals the sum over every matched sale. -/
theorem sales_report_cogs_amended (tz s e : Nat) (salesList : List Sale)
    (products : List Product) :
    (getSalesReport tz s e salesList products).profit =
      (getSalesReport tz s e salesList products).totalRevenue -
        (getSalesReport tz s e salesList products).totalCOGS ∧
    (getSalesReport tz s e salesList products).totalCOGS =
      totalCOGS products (recentSales (matchedSales tz s e salesList)) ∧
    ((matchedSales tz s e salesList).length ≤ 100 →
      (getSalesReport tz s e salesList products).totalCOGS =
        specTotalCOGS tz s e salesList products) := by
  refine ⟨rfl, rfl, ?_⟩
  intro h
  show totalCOGS products (recentSales (matchedSales tz s e salesList)) =
    totalCOGS products (matchedSales tz s e salesList)
  have hperm := sortOrd_perm byCreatedDesc (matchedSales tz s e salesList)
  have hlen : (sortOrd byCreatedDesc (matchedSales tz s e salesList)).length ≤ 100 := by
    rw [hperm.length_eq]; exact h
  rw [recentSales, List.take_of_length_le hlen]
  exact (hperm.map (saleCOGS products)).sum_eq

/-- Witness for the amended C2 on a one-sale input, where the 100-sale
window covers the whole range. -/
theorem sales_report_cogs_amended_wit :
    (matchedSales 0 0 0 [mkSimpleSale 0]).length ≤ 100 ∧
    (getSalesReport 0 0 0 [mkSimpleSale 0] [prodOne]).totalCOGS =
      specTotalCOGS 0 0 0 [mkSimpleSale 0] [prodOne] :=
  ⟨by decide, (sales_report_cogs_amended 0 0 0 [mkSimpleSale 0] [prodOne]).2.2 (by decide)⟩

/-- Counterexample to claim C3 as stated: the code compares createdAt
against the parsed start instant, not against the start of its day.  A sale
at the first millisecond of the day is outside the code range when the
start instant is mid-day, yet inside the claimed startOfDay range. -/
theorem sales_report_start_boundary_cex :
    (getSalesReport 0 1000 1000 [earlySale] []).totalSales = 0 ∧
    (specMatchedSales 0 1000 1000 [earlySale]).length = 1 := by
  exact ⟨by decide, by decide⟩

/-- Claim C3 as amended: the counted sales are exactly those with isVoid
false and createdAt in the inclusive range from the parsed start instant
(not truncated to the start of its day) to the end instant extended to the
last millisecond of its day; void sales are excluded from every metric, and
the per-day buckets count and sum exactly the matched set. -/
theorem sales_report_filter_amended (tz s e : Nat) (salesList : List Sale)
    (products : List Product) (r : SalesReport)
    (hr : r = getSalesReport tz s e salesList products) :
    (∀ sl, sl ∈ matchedSales tz s e salesList ↔
        sl ∈ salesList ∧ sl.isVoid = false ∧ s ≤ sl.createdAt ∧
          sl.createdAt ≤ endOfDayTs tz e) ∧
    (∀ sl ∈ salesList, sl.isVoid = true → sl ∉ matchedSales tz s e salesList) ∧
    r.totalSales = (matchedSales tz s e salesList).length ∧
    r.totalRevenue = revenueOf (matchedSales tz s e salesList) ∧
    r.totalVAT = vatOf (matchedSales tz s e salesList) ∧
    (∀ b ∈ r.salesByDate,
        b.count = ((matchedSales tz s e salesList).filter
            fun sl => dayKey tz sl.createdAt == b.key).length ∧
        b.revenue = revenueOf ((matchedSales tz s e salesList).filter
            fun sl => dayKey tz sl.createdAt == b.key)) ∧
    (∀ sl ∈ matchedSales tz s e salesList, ∃ b ∈ r.salesByDate,
        b.key = dayKey tz sl.createdAt) := by
  subst hr
  refine ⟨mem_matchedSales tz s e salesList, ?_, rfl, rfl, rfl, ?_, ?_⟩
  · intro sl _ hv hmem
    have hfalse := ((mem_matchedSales tz s e salesList sl).mp hmem).2.1
    rw [hv] at hfalse
    exact Bool.true_eq_false.mp hfalse
  · intro b hb
    have hb2 : b ∈ (((matchedSales tz s e salesList).map
        fun sl => dayKey tz sl.createdAt).dedup).map (fun k =>
          { key := k
            count := ((matchedSales tz s e salesList).filter
                fun sl => dayKey tz sl.createdAt == k).length
            revenue := revenueOf ((matchedSales tz s e salesList).filter
                fun sl => dayKey tz sl.createdAt == k) : DayBucket }) :=
      (mem_sortOrd _ _ _).mp hb
    obtain ⟨k, _, rfl⟩ := List.mem_map.mp hb2
    exact ⟨rfl, rfl⟩
  · intro sl hsl
    exact ⟨_, (mem_sortOrd _ _ _).mpr (List.mem_map.mpr
      ⟨dayKey tz sl.createdAt,
        List.mem_dedup.mpr (List.mem_map.mpr ⟨sl, hsl, rfl⟩), rfl⟩), rfl⟩

/-- Witness for the amended C3: a concrete sale is matched and lands in a
per-day bucket of the report. -/
theorem sales_report_filter_amended_wit :
    earlySale ∈ matchedSales 0 0 0 [earlySale] ∧
    ∃ b ∈ (getSalesReport 0 0 0 [earlySale] []).salesByDate,
      b.key = dayKey 0 earlySale.createdAt :=
  ⟨by decide,
   (sales_report_filter_amended 0 0 0 [earlySale] [] _ rfl).2.2.2.2.2.2
     earlySale (by decide)⟩

/-- Evaluation of the tie scenario groups: both products sold quantity 5. -/
theorem topGroups_tie_eval :
    topGroups 0 none [tieSaleA, tieSaleB] [prodOne, prodTwo] = [entryA, entryB] := by
  simp [topGroups, topMatched, unwound, tieSaleA, tieSaleB, lookupProduct, prodOne, prodTwo,
    mkTopEntry, qtyFor, revFor, cntFor, entryA, entryB, List.dedup]

/-- Counterexample to claim C4 as stated: the pipeline sorts by total
quantity only, and the storage engine fixes no order among rows with equal
sort keys, so two sales tied at quantity 5 allow two distinct valid
outputs — the ranking is not determined by any fixed tie-break rule. -/
theorem top_products_tie_cex :
    isTopResult 0 none 10 [tieSaleA, tieSaleB] [prodOne, prodTwo] [entryA, entryB] ∧
    isTopResult 0 none 10 [tieSaleA, tieSaleB] [prodOne, prodTwo] [entryB, entryA] ∧
    ([entryA, entryB] : List TopEntry) ≠ [entryB, entryA] := by
  refine ⟨⟨[entryA, entryB], ?_, by decide, rfl⟩,
    ⟨[entryB, entryA], ?_, by decide, rfl⟩, by simp [entryA, entryB]⟩
  · rw [topGroups_tie_eval]
  · rw [topGroups_tie_eval]
    exact List.Perm.swap entryB entryA []

/-- Claim C4 as amended: every valid top-products result unwinds the line
items of the non-void sales in the optional range, groups by product with
summed quantity, revenue and occurrence count, is sorted descending by
total quantity and truncated to the limit; the relative order of entries
tied on quantity is left unspecified by the code. -/
theorem top_products_amended (tz : Nat) (range : Option (Nat × Nat)) (limit : Nat)
    (salesList : List Sale) (products : List Product) (out : List TopEntry)
    (h : isTopResult tz range limit salesList products out) :
    chainLe topQtyGe out = true ∧ out.length ≤ limit ∧
    ∀ en ∈ out, ∃ p, lookupProduct products en.productId = some p ∧
      en.productName = p.name ∧
      en.totalQuantity = qtyFor (unwound (topMatched tz range salesList)) en.productId ∧
      en.totalRevenue = revFor (unwound (topMatched tz range salesList)) en.productId ∧
      en.saleCount = cntFor (unwound (topMatched tz range salesList)) en.productId := by
  obtain ⟨l, hperm, hchain, hout⟩ := h
  refine ⟨hout ▸ chainLe_take topQtyGe l limit hchain, ?_, ?_⟩
  · rw [hout, List.length_take]
    exact min_le_left _ _
  · intro en hen
    have h1 : en ∈ l := List.mem_of_mem_take (hout ▸ hen)
    have h2 : en ∈ topGroups tz range salesList products := hperm.mem_iff.mpr h1
    simp only [topGroups] at h2
    obtain ⟨pid, _, hmk⟩ := List.mem_filterMap.mp h2
    obtain ⟨p, hp, hmk2⟩ := Option.map_eq_some'.mp hmk
    subst hmk2
    exact ⟨p, hp, rfl, rfl, rfl, rfl⟩

/-- Witness for the amended C4 on the tie scenario. -/
theorem top_products_amended_wit :
    chainLe topQtyGe [entryA, entryB] = true ∧
    ([entryA, entryB] : List TopEntry).length ≤ 10 :=
  ⟨(top_products_amended 0 none 10 [tieSaleA, tieSaleB] [prodOne, prodTwo] [entryA, entryB]
      ⟨[entryA, entryB], by rw [topGroups_tie_eval], by decide, rfl⟩).1,
   (top_products_amended 0 none 10 [tieSaleA, tieSaleB] [prodOne, prodTwo] [entryA, entryB]
      ⟨[entryA, entryB], by rw [topGroups_tie_eval], by decide, rfl⟩).2.1⟩

/-- Claim C5: after creation or an update, the pricing history is non-empty
and its last entry holds the effective base price and markup; an update
appends a history entry if and only if the new price or markup differs
numerically from the stored values, so an update with unchanged values
leaves the history unchanged. -/
theorem pricing_history_invariant (body : ProductBody) (pid now : Nat) (p : Product)
    (body2 : ProductBody) (now2 : Nat)
    (hne : p.pricingHistory ≠ []) (hlast : lastReflects p) :
    ((createProduct body pid now).pricingHistory ≠ [] ∧
      lastReflects (createProduct body pid now)) ∧
    ((updateProduct p body2 now2).pricingHistory ≠ [] ∧
      lastReflects (updateProduct p body2 now2)) ∧
    ((updateProduct p body2 now2).pricingHistory = p.pricingHistory ↔
      newPriceOf p body2 = p.price ∧ newMarkupOf p body2 = p.markupPercentage) := by
  have hcreate : (createProduct body pid now).pricingHistory ≠ [] ∧
      lastReflects (createProduct body pid now) := by
    refine ⟨by simp [createProduct],
      ⟨{ basePrice := body.price.getD 0, markupPercentage := body.markupPercentage.getD 0,
         updatedAt := now }, by simp [createProduct], rfl, rfl⟩⟩
  by_cases hcond : newPriceOf p body2 = p.price ∧ newMarkupOf p body2 = p.markupPercentage
  · refine ⟨hcreate, ⟨?_, ?_⟩, ?_⟩
    · simpa [updateProduct, hcond.1, hcond.2] using hne
    · obtain ⟨en, hen, hb, hm⟩ := hlast
      refine ⟨en, by simpa [updateProduct, hcond.1, hcond.2] using hen, ?_, ?_⟩
      · rw [hb]
        simp [updateProduct, hcond.1]
      · rw [hm]
        simp [updateProduct, hcond.2]
    · simp [updateProduct, hcond.1, hcond.2]
  · have hor : ¬newPriceOf p body2 = p.price ∨ ¬newMarkupOf p body2 = p.markupPercentage :=
      not_and_or.mp hcond
    refine ⟨hcreate, ⟨?_, ?_⟩, ?_⟩
    · simp [updateProduct, hor]
    · refine ⟨PricingEntry.mk (newPriceOf p body2) (newMarkupOf p body2) now2,
        by simp [updateProduct, hor], rfl, rfl⟩
    · constructor
      · intro heq
        exfalso
        simp only [updateProduct] at heq
        rw [if_pos hor] at heq
        have hl := congrArg List.length heq
        rw [List.length_append] at hl
        by_cases he : p.pricingHistory = []
        · rw [if_pos he] at hl
          rw [he] at hl
          simp at hl
        · rw [if_neg he] at hl
          simp at hl
      · intro hy
        exact absurd hy hcond

/-- Witness for C5: an update of a concrete product with an empty body
changes nothing and keeps the invariant. -/
theorem pricing_history_invariant_wit :
    prodOne.pricingHistory ≠ [] ∧
    ((updateProduct prodOne ⟨none, none, none, none, none⟩ 5).pricingHistory =
        prodOne.pricingHistory ↔
      newPriceOf prodOne ⟨none, none, none, none, none⟩ = prodOne.price ∧
        newMarkupOf prodOne ⟨none, none, none, none, none⟩ = prodOne.markupPercentage) :=
  ⟨by simp [prodOne],
   (pricing_history_invariant ⟨none, none, none, none, none⟩ 0 0 prodOne
      ⟨none, none, none, none, none⟩ 5 (by simp [prodOne])
      ⟨{ basePrice := 1, markupPercentage := 0, updatedAt := 0 }, by simp [prodOne],
        rfl, rfl⟩).2.2⟩

/-- Claim C6: the void route reaches its controller exactly for admin or
staff callers presenting a non-empty (after trim) supervisor code; any
other request is rejected before the reversal handler runs and leaves the
state alone, while the create-sale route allows supplier, staff and admin. -/
theorem sales_routes_authz {σ : Type} (handler : σ → σ) (st : σ) (role : Role)
    (code : String) :
    (voidGate role code = VoidGate.executed ↔
      (role = Role.admin ∨ role = Role.staff) ∧ trimmed code ≠ []) ∧
    (voidGate role code ≠ VoidGate.executed → voidRoute handler role code st = st) ∧
    createSaleAllowed role = true := by
  refine ⟨?_, ?_, ?_⟩
  · by_cases h : trimmed code = [] <;>
      cases role <;> simp [voidGate, authorize, h]
  · intro h
    rw [voidRoute]
    cases hv : voidGate role code with
    | executed => exact absurd hv h
    | rejectedRole => rfl
    | rejectedCode => rfl
  · cases role <;> rfl

/-- Witness for C6: a supplier request with a code is rejected by the gate
and the state is untouched; an admin request with a code executes. -/
theorem sales_routes_authz_wit :
    voidRoute (fun n => n + 1) Role.supplier "x" (0 : Nat) = 0 ∧
    voidGate Role.admin "x" = VoidGate.executed :=
  ⟨(sales_routes_authz (fun n => n + 1) (0 : Nat) Role.supplier "x").2.1 (by decide),
   (sales_routes_authz (fun n => n + 1) (0 : Nat) Role.admin "x").1.mpr
     ⟨Or.inl rfl, by decide⟩⟩

/-- Claim C7: the inventory report covers exactly the active products, its
total stock value sums price times stock over them, its low-stock and
out-of-stock sets are exactly the active products at or below threshold
and at zero stock, and each category bucket counts and values the active
products of that category, with missing categories in Uncategorized. -/
theorem inventory_report_correct (products : List Product) (r : InventoryReport)
    (hr : r = getInventoryReport products) :
    (∀ p, p ∈ r.data ↔ p ∈ products ∧ p.isActive = true) ∧
    r.totalStockValue = stockValue (products.filter (·.isActive)) ∧
    (∀ p, p ∈ r.lowStockList ↔
      p ∈ products ∧ p.isActive = true ∧ p.stockQuantity ≤ p.lowStockThreshold) ∧
    (∀ p, p ∈ r.outOfStockList ↔
      p ∈ products ∧ p.isActive = true ∧ p.stockQuantity = 0) ∧
    (∀ b ∈ r.byCategory,
      b.count = ((products.filter (·.isActive)).filter
          fun p => categoryOr p == b.category).length ∧
      b.totalValue = stockValue ((products.filter (·.isActive)).filter
          fun p => categoryOr p == b.category)) ∧
    (∀ p ∈ products, p.isActive = true → p.category = none →
      ∃ b ∈ r.byCategory, b.category = "Uncategorized") := by
  subst hr
  refine ⟨?_, rfl, ?_, ?_, ?_, ?_⟩
  · intro p
    simp [getInventoryReport, List.mem_filter]
  · intro p
    simp only [getInventoryReport, List.mem_filter, decide_eq_true_eq, beq_iff_eq, and_assoc]
  · intro p
    simp only [getInventoryReport, List.mem_filter, decide_eq_true_eq, beq_iff_eq, and_assoc]
  · intro b hb
    simp only [getInventoryReport] at hb
    obtain ⟨c, _, rfl⟩ := List.mem_map.mp hb
    exact ⟨rfl, rfl⟩
  · intro p hp ha hc
    exact ⟨_, List.mem_map.mpr
      ⟨"Uncategorized",
        List.mem_dedup.mpr (List.mem_map.mpr
          ⟨p, List.mem_filter.mpr ⟨hp, ha⟩, by simp [categoryOr, hc]⟩), rfl⟩, rfl⟩

/-- Witness for C7 on a one-product inventory with no category. -/
theorem inventory_report_correct_wit :
    prodOne ∈ (getInventoryReport [prodOne]).data ∧
    ∃ b ∈ (getInventoryReport [prodOne]).byCategory, b.category = "Uncategorized" :=
  ⟨((inventory_report_correct [prodOne] _ rfl).1 prodOne).mpr
      ⟨List.mem_singleton.mpr rfl, rfl⟩,
   (inventory_report_correct [prodOne] _ rfl).2.2.2.2.2 prodOne
     (List.mem_singleton.mpr rfl) rfl rfl⟩

/-- Claim C8: revenue trends select the day, week or month date format for
the groupBy values day, week and month, bucket the non-void sales of the
range by the formatted key, sum revenue and sale count per bucket, and
return the buckets sorted ascending by bucket key. -/
theorem revenue_trends_correct (dts : DateFmt → Nat → Nat) (tz s e : Nat)
    (groupBy : String) (salesList : List Sale) (out : List TrendBucket)
    (hout : out = getRevenueTrends dts tz s e groupBy salesList) :
    (trendFormat "day" = DateFmt.fmtDay ∧ trendFormat "week" = DateFmt.fmtWeek ∧
      trendFormat "month" = DateFmt.fmtMonth) ∧
    chainLe trendKeyLe out = true ∧
    (∀ b ∈ out,
      b.revenue = revenueOf ((matchedSales tz s e salesList).filter
          fun sl => dts (trendFormat groupBy) sl.createdAt == b.date) ∧
      b.sales = ((matchedSales tz s e salesList).filter
          fun sl => dts (trendFormat groupBy) sl.createdAt == b.date).length) ∧
    (∀ sl ∈ matchedSales tz s e salesList, ∃ b ∈ out,
      b.date = dts (trendFormat groupBy) sl.createdAt) := by
  subst hout
  refine ⟨⟨rfl, rfl, rfl⟩, ?_, ?_, ?_⟩
  · exact sortOrd_chain trendKeyLe
      (by intro a b; simp only [trendKeyLe, decide_eq_true_eq]; omega) _
  · intro b hb
    have hb2 := (mem_sortOrd _ _ _).mp hb
    obtain ⟨k, _, rfl⟩ := List.mem_map.mp hb2
    exact ⟨rfl, rfl⟩
  · intro sl hsl
    exact ⟨_, (mem_sortOrd _ _ _).mpr (List.mem_map.mpr
      ⟨dts (trendFormat groupBy) sl.createdAt,
        List.mem_dedup.mpr (List.mem_map.mpr ⟨sl, hsl, rfl⟩), rfl⟩), rfl⟩

/-- Witness for C8: a concrete sale lands in a bucket keyed by its day. -/
theorem revenue_trends_correct_wit :
    earlySale ∈ matchedSales 0 0 0 [earlySale] ∧
    ∃ b ∈ getRevenueTrends (fun _ t => dayKey 0 t) 0 0 0 "day" [earlySale],
      b.date = dayKey 0 earlySale.createdAt :=
  ⟨by decide,
   (revenue_trends_correct (fun _ t => dayKey 0 t) 0 0 0 "day" [earlySale] _ rfl).2.2.2
     earlySale (by decide)⟩

/-- Claim C9: a date range matching no non-void sale yields the all-zero
sales report with an empty bucket map, no active products yield the empty
inventory totals, the trends list is empty, and every valid top-products
result is empty — never an error. -/
theorem empty_reports_zero (dts : DateFmt → Nat → Nat) (tz s e : Nat) (groupBy : String)
    (range : Option (Nat × Nat)) (limit : Nat)
    (salesList : List Sale) (products : List Product)
    (hm : matchedSales tz s e salesList = [])
    (ha : products.filter (·.isActive) = [])
    (ht : topMatched tz range salesList = []) :
    (getSalesReport tz s e salesList products).totalSales = 0 ∧
    (getSalesReport tz s e salesList products).totalRevenue = 0 ∧
    (getSalesReport tz s e salesList products).totalVAT = 0 ∧
    (getSalesReport tz s e salesList products).totalCOGS = 0 ∧
    (getSalesReport tz s e salesList products).profit = 0 ∧
    (getSalesReport tz s e salesList products).salesByDate = [] ∧
    (getInventoryReport products).totalProducts = 0 ∧
    (getInventoryReport products).totalStockValue = 0 ∧
    (getInventoryReport products).byCategory = [] ∧
    getRevenueTrends dts tz s e groupBy salesList = [] ∧
    (∀ out, isTopResult tz range limit salesList products out → out = []) := by
  refine ⟨?_, ?_, ?_, ?_, ?_, ?_, ?_, ?_, ?_, ?_, ?_⟩
  · show (matchedSales tz s e salesList).length = 0
    rw [hm]; rfl
  · show revenueOf (matchedSales tz s e salesList) = 0
    rw [hm]; rfl
  · show vatOf (matchedSales tz s e salesList) = 0
    rw [hm]; rfl
  · show totalCOGS products (recentSales (matchedSales tz s e salesList)) = 0
    rw [hm]; rfl
  · show revenueOf (matchedSales tz s e salesList) -
      totalCOGS products (recentSales (matchedSales tz s e salesList)) = 0
    rw [hm]
    norm_num [revenueOf, totalCOGS, recentSales, sortOrd]
  · show dayBuckets tz (matchedSales tz s e salesList) = []
    rw [hm]; rfl
  · show (products.filter (·.isActive)).length = 0
    rw [ha]; rfl
  · show stockValue (products.filter (·.isActive)) = 0
    rw [ha]; rfl
  · show (((products.filter (·.isActive)).map categoryOr).dedup).map _ = []
    rw [ha]; rfl
  · show sortOrd trendKeyLe ((((matchedSales tz s e salesList).map _).dedup).map _) = []
    rw [hm]; rfl
  · intro out hout
    have hg : topGroups tz range salesList products = [] := by
      simp only [topGroups]
      rw [ht]
      rfl
    obtain ⟨l, hperm, _, houteq⟩ := hout
    rw [hg] at hperm
    rw [houteq, hperm.symm.eq_nil, List.take_nil]

/-- Witness for C9 on empty stores. -/
theorem empty_reports_zero_wit :
    matchedSales 0 0 0 [] = [] ∧ ([] : List Product).filter (·.isActive) = [] ∧
    topMatched 0 none [] = [] ∧
    (getSalesReport 0 0 0 [] []).totalRevenue = 0 ∧
    getRevenueTrends (fun _ t => dayKey 0 t) 0 0 0 "day" [] = [] ∧
    ([] : List TopEntry) = [] :=
  ⟨rfl, rfl, rfl,
   (empty_reports_zero (fun _ t => dayKey 0 t) 0 0 0 "day" none 10 [] [] rfl rfl rfl).2.1,
   (empty_reports_zero (fun _ t => dayKey 0 t) 0 0 0 "day" none 10 [] []
      rfl rfl rfl).2.2.2.2.2.2.2.2.2.1,
   (empty_reports_zero (fun _ t => dayKey 0 t) 0 0 0 "day" none 10 [] []
      rfl rfl rfl).2.2.2.2.2.2.2.2.2.2 []
     ⟨[], List.Perm.refl _, rfl, rfl⟩⟩

/-- Claim C10: a line item whose product no longer resolves contributes 0 to
COGS; hence removing a product can only lower the reported COGS of the
sales report and raise its reported profit, for nonnegative base prices. -/
theorem cogs_missing_product (tz s e : Nat) (salesList : List Sale)
    (products : List Product) (pid : Nat)
    (hpos : ∀ p ∈ products, 0 ≤ p.price) :
    (∀ it : SaleItem, it.product = pid → itemCOGS (removeProduct pid products) it = 0) ∧
    (getSalesReport tz s e salesList (removeProduct pid products)).totalCOGS ≤
      (getSalesReport tz s e salesList products).totalCOGS ∧
    (getSalesReport tz s e salesList products).profit ≤
      (getSalesReport tz s e salesList (removeProduct pid products)).profit := by
  have hc : totalCOGS (removeProduct pid products)
        (recentSales (matchedSales tz s e salesList)) ≤
      totalCOGS products (recentSales (matchedSales tz s e salesList)) :=
    totalCOGS_remove_le products pid _ hpos
  refine ⟨?_, hc, ?_⟩
  · intro it hit
    rw [itemCOGS, hit, lookupProduct_remove_self]
  · show revenueOf (matchedSales tz s e salesList) -
        totalCOGS products (recentSales (matchedSales tz s e salesList)) ≤
      revenueOf (matchedSales tz s e salesList) -
        totalCOGS (removeProduct pid products) (recentSales (matchedSales tz s e salesList))
    exact sub_le_sub_left hc _

/-- Witness for C10: with the only product removed, a line item referencing
it contributes 0. -/
theorem cogs_missing_product_wit :
    (0 : Rat) ≤ prodOne.price ∧
    itemCOGS (removeProduct 1 [prodOne])
      { product := 1, quantity := 1, unitPrice := 1, subtotal := 1 } = 0 :=
  ⟨by norm_num [prodOne],
   (cogs_missing_product 0 0 0 [] [prodOne] 1
      (by intro p hp; rw [List.mem_singleton] at hp; subst hp; norm_num [prodOne])).1
     { product := 1, quantity := 1, unitPrice := 1, subtotal := 1 } rfl⟩
